import Mathlib

/-!
Verification development for the glvideo `Movie` class
(src/include/Movie.h).  C++ `double` values are modelled as exact
rationals (`ℚ`), `size_t` counters as `ℕ`, and the truncating
double-to-integer cast as truncation toward zero on `ℚ`.
Method bodies that live outside the provided header (Movie.cpp,
concurrency.h) are modelled from the specification and carry a
doc comment saying so.
-/

namespace GLVideo

/-- Truncation of a real (double) value toward zero, the behaviour of a
C++ cast from `double` to an integer type, on the rational model. -/
def truncQ (x : ℚ) : ℤ := if 0 ≤ x then ⌊x⌋ else ⌈x⌉

/-- `Movie::Options` (Movie.h, lines 35-65) with its default member
initializers `m_cpuBufferSize = 2`, `m_gpuBufferSize = 2`,
`m_prebuffer = true`. -/
structure Options where
  m_cpuBufferSize : ℕ := 2
  m_gpuBufferSize : ℕ := 2
  m_prebuffer : Bool := true

/-- Accessor `Options::cpuBufferSize() const`. -/
def Options.cpuBufferSize (o : Options) : ℕ := o.m_cpuBufferSize

/-- Accessor `Options::gpuBufferSize() const`. -/
def Options.gpuBufferSize (o : Options) : ℕ := o.m_gpuBufferSize

/-- Accessor `Options::prebuffer() const`. -/
def Options.getPrebuffer (o : Options) : Bool := o.m_prebuffer

/-- The default-constructed `Options()` (all fields keep the member
initializers of Movie.h lines 62-64). -/
def defaultOptions : Options := {}

/-- `Movie::getReadSample()` (Movie.h line 225):
`(size_t)((double)m_readFraction * (double)m_numSamples)`.
The cast to `size_t` truncates toward zero. -/
def getReadSample (readFraction : ℚ) (numSamples : ℕ) : ℤ :=
  truncQ (readFraction * (numSamples : ℚ))

/-- The compare-and-retry loop of `Movie::incrementReadFraction`
(Movie.h lines 220-224), run against a finite interference schedule
`ms`: entry `i` of `ms` is the value the atomic holds at the moment of
the `i`-th `compare_exchange_weak` attempt.  If the value matches the
locally held `current` the exchange succeeds and the atomic ends up
holding `current + d`; otherwise `compare_exchange_weak` stores the
observed value back into `current` and the loop retries.  Once the
schedule is exhausted no other thread writes anymore, so the atomic
still holds the last value `current` observed and the next attempt
succeeds. -/
def casRetryLoop (d : ℚ) : ℚ → List ℚ → ℚ
  | current, [] => current + d
  | current, m :: ms => if m = current then current + d else casRetryLoop d m ms

/-- Sequential effect of `Movie::incrementReadFraction(increment)`
(Movie.h lines 220-224): with no interfering writer the loop succeeds
on its first exchange. -/
def incrementReadFraction (v increment : ℚ) : ℚ := casRetryLoop increment v []

/-- The read-progress value after `k` reader iterations, each iteration
calling `incrementReadFraction d` on the stored fraction (Movie.h
lines 219-224); `d` is `1 / numSamples` during playback. -/
def progressTrace (v0 d : ℚ) : ℕ → ℚ
  | 0 => v0
  | k + 1 => incrementReadFraction (progressTrace v0 d k) d

/-- Per-track metadata resolved at open time (spec §3
`TrackDescription`; Movie.h fields `m_codec`, `m_width`, `m_height`,
`m_fps`, `m_numSamples`). -/
structure TrackInfo where
  codec : String
  width : ℕ
  height : ℕ
  fps : ℚ
  numSamples : ℕ
  duration : ℚ

/-- The `Movie` state: the fields of Movie.h with their in-class member
initializers (`m_playbackRate = 1.f` line 190, `m_isPlaying` false at
line 213, `m_loop` false at line 217, `m_readFraction = 0.` line 219,
`m_currentFrame = nullptr` line 184,
`m_forceRefreshCurrentFrame = false` line 199), plus the two bounded
frame buffers (lines 227-228) as lists of sample indices with their
capacities fixed from `Options`. -/
structure MovieState where
  track : TrackInfo
  cpuCap : ℕ
  gpuCap : ℕ
  m_playbackRate : ℚ := 1
  m_isPlaying : Bool := false
  m_loop : Bool := false
  m_readFraction : ℚ := 0
  m_currentFrame : Option ℕ := none
  m_forceRefreshCurrentFrame : Bool := false
  m_lastFrameQueuedAt : ℚ := 0
  m_cpuFrameBuffer : List ℕ := []
  m_gpuFrameBuffer : List ℕ := []

/-- `Movie::isPlaying()` (Movie.h line 137). -/
def MovieState.isPlaying (s : MovieState) : Bool := s.m_isPlaying

/-- `Movie::getPlaybackRate()` (Movie.h line 159). -/
def MovieState.getPlaybackRate (s : MovieState) : ℚ := s.m_playbackRate

/-- `Movie::getCurrentFrame()` (Movie.h line 165). -/
def MovieState.getCurrentFrame (s : MovieState) : Option ℕ := s.m_currentFrame

/-- A freshly constructed `Movie` before any control call: every field
takes its in-class member initializer (Movie.h lines 184-228), and the
buffer capacities come from the passed `Options`. -/
def initMovie (t : TrackInfo) (opts : Options) : MovieState :=
  { track := t, cpuCap := opts.cpuBufferSize, gpuCap := opts.gpuBufferSize }

/-- Modelled from the spec: `Movie::setPlaybackRate` (declared Movie.h
line 162, body not in the provided sources).  Spec §4.5: updates the
pacing rate used by the Upload Stage and nothing else. -/
def setPlaybackRate (rate : ℚ) (s : MovieState) : MovieState :=
  { s with m_playbackRate := rate }

/-- Modelled from the spec: `Movie::pause` (declared Movie.h line 143,
body not in the provided sources).  Header comment: pauses playing the
movie but leaves the read thread running, i.e. the playback rate
becomes 0 and no other state changes. -/
def pause (s : MovieState) : MovieState :=
  { s with m_playbackRate := 0 }

/-- Modelled from the spec: `Movie::update` (declared Movie.h line 170,
body not in the provided sources).  Spec §4.4: the pacing interval is
`1 / (framerate × playbackRate)`; when the forced-refresh flag is set,
or the rate is nonzero and the elapsed wall-clock time exceeds the
interval, pop one frame from the CPU buffer (non-blocking: an empty
buffer retains the previous frame), upload it into the next GPU slot
in round-robin order, publish it as current and record the timestamp.
A playback rate of 0 never triggers a publish. -/
def update (now : ℚ) (s : MovieState) : MovieState :=
  if s.m_forceRefreshCurrentFrame = true ∨
      (s.m_playbackRate ≠ 0 ∧
        1 / (s.track.fps * s.m_playbackRate) < now - s.m_lastFrameQueuedAt) then
    match s.m_cpuFrameBuffer with
    | [] => s
    | f :: rest =>
      let g := s.m_gpuFrameBuffer ++ [f]
      { s with
        m_cpuFrameBuffer := rest
        m_gpuFrameBuffer := if s.gpuCap < g.length then g.tail else g
        m_currentFrame := some f
        m_lastFrameQueuedAt := now
        m_forceRefreshCurrentFrame := false }
  else s

/-- Modelled from the spec: one iteration of the Read Scheduler loop
(`Movie::read`, declared Movie.h line 207, body not in the provided
sources).  Spec §4.3: while Playing, compute the next sample index
from the progress tracker, decode it, push the frame into the CPU
buffer (blocking under backpressure, modelled as a no-op step while
the buffer is full), and advance the tracker by `1 / numSamples`; at
end of stream either wrap to 0 (looping) or transition to stopped. -/
def readerStep (s : MovieState) : MovieState :=
  if s.m_isPlaying = true then
    if getReadSample s.m_readFraction s.track.numSamples < (s.track.numSamples : ℤ) then
      if s.m_cpuFrameBuffer.length < s.cpuCap then
        { s with
          m_cpuFrameBuffer := s.m_cpuFrameBuffer ++
            [(getReadSample s.m_readFraction s.track.numSamples).toNat]
          m_readFraction :=
            incrementReadFraction s.m_readFraction (1 / (s.track.numSamples : ℚ)) }
      else s
    else if s.m_loop = true then { s with m_readFraction := 0 }
    else { s with m_isPlaying := false }
  else s

/-- Modelled from the spec: the bounded concurrent buffer
(`concurrent_buffer` from concurrency.h, used at Movie.h lines 227-228,
not in the provided sources).  Spec §4.1: a thread-safe fixed-capacity
FIFO queue with blocking push/pop and a close operation. -/
structure ConcurrentBuffer where
  capacity : ℕ
  items : List ℕ
  closed : Bool

/-- Modelled from the spec: the observable transitions of the bounded
concurrent buffer (spec §4.1).  A push inserts only when a slot is free
and the buffer is open (a producer facing a full buffer blocks, so the
state does not change until a slot frees); a pop removes the oldest
item when one exists; close marks the buffer closed and wakes blocked
callers. -/
inductive BufferStep : ConcurrentBuffer → ConcurrentBuffer → Prop
  | push (b : ConcurrentBuffer) (a : ℕ) (hlen : b.items.length < b.capacity)
      (hopen : b.closed = false) :
      BufferStep b { b with items := b.items ++ [a] }
  | pop (b : ConcurrentBuffer) (h : b.items ≠ []) :
      BufferStep b { b with items := b.items.tail }
  | close (b : ConcurrentBuffer) : BufferStep b { b with closed := true }

/-- The buffer as it is constructed: empty, open, with its capacity
fixed from the options. -/
def emptyBuffer (cap : ℕ) : ConcurrentBuffer := ⟨cap, [], false⟩

/-- States of a buffer of capacity `cap` reachable under any finite
interleaving of push, pop and close. -/
def BufferReachable (cap : ℕ) (b : ConcurrentBuffer) : Prop :=
  Relation.ReflTransGen BufferStep (emptyBuffer cap) b

/-- Movie errors raised at open time (spec §7; `UnsupportedCodecError`
is declared in Movie.h lines 25-28). -/
inductive MovieError where
  | unsupportedCodec (c : String)
  | openFailure (msg : String)
deriving DecidableEq

/-- Modelled from the spec: Movie construction (constructor declared at
Movie.h line 91, body not in the provided sources).  Spec §4.3/§7:
unsupported-codec detection happens eagerly once at construction/open
time, before any playback begins, and is fatal — construction throws
`UnsupportedCodecError` and no usable object is produced; otherwise
the fully initialized Movie is returned. -/
def constructMovie (supported : List String) (t : TrackInfo) (opts : Options) :
    Except MovieError MovieState :=
  if t.codec ∈ supported then .ok (initMovie t opts)
  else .error (.unsupportedCodec t.codec)

/-- A concrete synthetic track used to instantiate theorems: the
10-sample, 10 fps track of spec §8. -/
def sampleTrack : TrackInfo :=
  { codec := "avc1", width := 320, height := 240, fps := 10,
    numSamples := 10, duration := 1 }

/-- A concrete track whose codec the decoder does not support. -/
def badTrack : TrackInfo :=
  { codec := "mjpg", width := 320, height := 240, fps := 10,
    numSamples := 10, duration := 1 }

/-! Helper lemmas. -/

/-- On nonnegative input, truncation toward zero is the floor. -/
lemma truncQ_of_nonneg {x : ℚ} (h : 0 ≤ x) : truncQ x = ⌊x⌋ := by
  simp [truncQ, h]

/-- A single uncontended increment just adds. -/
lemma incrementReadFraction_eq (v d : ℚ) : incrementReadFraction v d = v + d := rfl

/-- Closed form of the progress trace. -/
lemma progressTrace_eq (v0 d : ℚ) (k : ℕ) :
    progressTrace v0 d k = v0 + k * d := by
  induction k with
  | zero => simp [progressTrace]
  | succ k ih =>
    simp [progressTrace, incrementReadFraction_eq, ih]
    ring

/-- A buffer transition preserves the capacity and keeps the occupancy
within it. -/
lemma bufferStep_inv {a b : ConcurrentBuffer} (h : BufferStep a b)
    (ha : a.items.length ≤ a.capacity) :
    b.items.length ≤ b.capacity ∧ b.capacity = a.capacity := by
  cases h with
  | push x hlen hopen => refine ⟨?_, rfl⟩; simp; omega
  | pop hne => refine ⟨?_, rfl⟩; simp [List.length_tail]; omega
  | close => exact ⟨ha, rfl⟩

/-- Every reachable buffer state keeps its occupancy within the
capacity it was constructed with. -/
lemma bufferReachable_inv {cap : ℕ} {b : ConcurrentBuffer}
    (h : BufferReachable cap b) :
    b.items.length ≤ b.capacity ∧ b.capacity = cap := by
  induction h with
  | refl => simp [emptyBuffer]
  | tail _ hstep ih =>
    obtain ⟨h1, h2⟩ := ih
    obtain ⟨h3, h4⟩ := bufferStep_inv hstep h1
    exact ⟨h3, h4.trans h2⟩

/-- With rate 0 and no pending forced refresh, update is the
identity. -/
lemma update_rate_zero (now : ℚ) (s : MovieState) (h0 : s.m_playbackRate = 0)
    (hf : s.m_forceRefreshCurrentFrame = false) : update now s = s := by
  have hcond : ¬ (s.m_forceRefreshCurrentFrame = true ∨
      (s.m_playbackRate ≠ 0 ∧
        1 / (s.track.fps * s.m_playbackRate) < now - s.m_lastFrameQueuedAt)) := by
    rintro (h | ⟨hne, _⟩)
    · rw [hf] at h; exact Bool.false_ne_true h
    · exact hne h0
  simp only [update, if_neg hcond]

/-- Folding update over any time sequence fixes a rate-0 state. -/
lemma foldl_update_rate_zero (ts : List ℚ) (s : MovieState)
    (h0 : s.m_playbackRate = 0) (hf : s.m_forceRefreshCurrentFrame = false) :
    ts.foldl (fun st now => update now st) s = s := by
  induction ts with
  | nil => rfl
  | cons t ts ih => rw [List.foldl_cons, update_rate_zero t s h0 hf, ih]

/-- A reader iteration commutes with changing the playback rate: the
Read Scheduler never looks at the rate. -/
lemma readerStep_setRate (s : MovieState) (r : ℚ) :
    readerStep (setPlaybackRate r s) = setPlaybackRate r (readerStep s) := by
  simp only [readerStep, setPlaybackRate]
  split_ifs <;> rfl

/-- update never changes the track metadata. -/
lemma update_track (now : ℚ) (s : MovieState) : (update now s).track = s.track := by
  rw [update]
  split_ifs
  · cases h : s.m_cpuFrameBuffer <;> rfl
  · rfl

/-- A reader iteration never changes the track metadata. -/
lemma readerStep_track (s : MovieState) : (readerStep s).track = s.track := by
  rw [readerStep]
  split_ifs <;> rfl

/-! Claim theorems. -/

/-- C1: for every read-progress fraction in [0,1) and every positive
numSamples, the sample index returned by getReadSample lies in
[0, numSamples); and starting from fraction 0, after any k < numSamples
accumulations of 1/numSamples by incrementReadFraction the stored
fraction is still in [0,1). -/
theorem getReadSample_valid (v : ℚ) (n : ℕ) (h0 : 0 ≤ v) (h1 : v < 1) (hn : 0 < n) :
    (0 ≤ getReadSample v n ∧ getReadSample v n < (n : ℤ)) ∧
    (∀ k : ℕ, k < n →
      0 ≤ progressTrace 0 (1 / (n : ℚ)) k ∧ progressTrace 0 (1 / (n : ℚ)) k < 1) := by
  constructor
  · have hnn : (0:ℚ) ≤ v * (n : ℚ) := mul_nonneg h0 (by positivity)
    rw [getReadSample, truncQ_of_nonneg hnn]
    refine ⟨Int.floor_nonneg.mpr hnn, Int.floor_lt.mpr ?_⟩
    push_cast
    calc v * (n : ℚ) < 1 * (n : ℚ) :=
          mul_lt_mul_of_pos_right h1 (by exact_mod_cast hn)
      _ = (n : ℚ) := one_mul _
  · intro k hk
    rw [progressTrace_eq, zero_add, mul_one_div]
    refine ⟨by positivity, ?_⟩
    rw [div_lt_one (by exact_mod_cast hn)]
    exact_mod_cast hk

/-- Witness for C1 at v = 1/2, n = 3. -/
theorem getReadSample_valid_w :
    ((0:ℚ) ≤ 1/2 ∧ (1/2:ℚ) < 1 ∧ 0 < 3) ∧
    ((0 ≤ getReadSample (1/2) 3 ∧ getReadSample (1/2) 3 < ((3:ℕ) : ℤ)) ∧
      (∀ k : ℕ, k < 3 →
        0 ≤ progressTrace 0 (1 / ((3:ℕ) : ℚ)) k ∧
          progressTrace 0 (1 / ((3:ℕ) : ℚ)) k < 1)) :=
  ⟨⟨by norm_num, by norm_num, by norm_num⟩,
    getReadSample_valid (1/2) 3 (by norm_num) (by norm_num) (by norm_num)⟩

/-- C2: for every nonnegative stored fraction v and sample count n,
getReadSample returns exactly floor(v * n): the truncating size_t cast
coincides with the floor on nonnegative arguments. -/
theorem getReadSample_eq_floor (v : ℚ) (n : ℕ) (h : 0 ≤ v) :
    getReadSample v n = ⌊v * (n : ℚ)⌋ := by
  rw [getReadSample, truncQ_of_nonneg (mul_nonneg h (by positivity))]

/-- Witness for C2 at v = 7/2, n = 4. -/
theorem getReadSample_eq_floor_w :
    (0:ℚ) ≤ 7/2 ∧ getReadSample (7/2) 4 = ⌊(7/2 : ℚ) * ((4:ℕ) : ℚ)⌋ :=
  ⟨by norm_num, getReadSample_eq_floor (7/2) 4 (by norm_num)⟩

/-- C3: the compare-and-retry loop of incrementReadFraction terminates
on every finite interference schedule, and the final stored value is
vStar + d where vStar is the value current at the successful exchange
(an element of the loaded value followed by the schedule), so the delta
is applied exactly once; with no interference the stored fraction
becomes v + d. -/
theorem incrementReadFraction_cas (v d : ℚ) (ms : List ℚ) :
    (∃ vStar ∈ v :: ms, casRetryLoop d v ms = vStar + d) ∧
    incrementReadFraction v d = v + d := by
  refine ⟨?_, rfl⟩
  induction ms generalizing v with
  | nil => exact ⟨v, List.mem_cons_self v [], rfl⟩
  | cons m ms ih =>
    by_cases h : m = v
    · exact ⟨v, List.mem_cons_self v (m :: ms), by simp [casRetryLoop, h]⟩
    · obtain ⟨w, hw, hew⟩ := ih m
      exact ⟨w, List.mem_cons_of_mem v hw, by simp [casRetryLoop, h, hew]⟩

/-- C4: with no intervening seek, the sequence of read-progress values
produced by repeated incrementReadFraction calls with increment
1/numSamples is non-decreasing. -/
theorem progressTrace_monotone (v0 : ℚ) (n : ℕ) (i j : ℕ) (hij : i ≤ j) :
    progressTrace v0 (1 / (n : ℚ)) i ≤ progressTrace v0 (1 / (n : ℚ)) j := by
  rw [progressTrace_eq, progressTrace_eq]
  have hd : (0:ℚ) ≤ 1 / (n : ℚ) := by positivity
  have hij2 : (i:ℚ) ≤ (j:ℚ) := by exact_mod_cast hij
  exact add_le_add_left (mul_le_mul_of_nonneg_right hij2 hd) v0

/-- Witness for C4 at v0 = 0, n = 5, i = 1, j = 3. -/
theorem progressTrace_monotone_w :
    1 ≤ 3 ∧
    progressTrace 0 (1 / ((5:ℕ) : ℚ)) 1 ≤ progressTrace 0 (1 / ((5:ℕ) : ℚ)) 3 :=
  ⟨by norm_num, progressTrace_monotone 0 5 1 3 (by norm_num)⟩

/-- C5: every state of a bounded buffer reachable under any
interleaving of push, pop and close keeps its occupancy within the
configured capacity, for the CPU-side and the GPU-side buffer alike;
the default configured capacities are 2 each. -/
theorem buffers_within_capacity (opts : Options) (cpu gpu : ConcurrentBuffer)
    (hc : BufferReachable opts.cpuBufferSize cpu)
    (hg : BufferReachable opts.gpuBufferSize gpu) :
    (cpu.items.length ≤ cpu.capacity ∧ cpu.capacity = opts.cpuBufferSize) ∧
    (gpu.items.length ≤ gpu.capacity ∧ gpu.capacity = opts.gpuBufferSize) ∧
    (defaultOptions.cpuBufferSize = 2 ∧ defaultOptions.gpuBufferSize = 2) :=
  ⟨bufferReachable_inv hc, bufferReachable_inv hg, rfl, rfl⟩

/-- Witness for C5 at the default options and the freshly constructed
buffers. -/
theorem buffers_within_capacity_w :
    (BufferReachable defaultOptions.cpuBufferSize
        (emptyBuffer defaultOptions.cpuBufferSize) ∧
      BufferReachable defaultOptions.gpuBufferSize
        (emptyBuffer defaultOptions.gpuBufferSize)) ∧
    (((emptyBuffer defaultOptions.cpuBufferSize).items.length ≤
          (emptyBuffer defaultOptions.cpuBufferSize).capacity ∧
        (emptyBuffer defaultOptions.cpuBufferSize).capacity =
          defaultOptions.cpuBufferSize) ∧
      ((emptyBuffer defaultOptions.gpuBufferSize).items.length ≤
          (emptyBuffer defaultOptions.gpuBufferSize).capacity ∧
        (emptyBuffer defaultOptions.gpuBufferSize).capacity =
          defaultOptions.gpuBufferSize) ∧
      (defaultOptions.cpuBufferSize = 2 ∧ defaultOptions.gpuBufferSize = 2)) :=
  ⟨⟨Relation.ReflTransGen.refl, Relation.ReflTransGen.refl⟩,
    buffers_within_capacity defaultOptions _ _
      Relation.ReflTransGen.refl Relation.ReflTransGen.refl⟩

/-- C6: with playback rate 0 and no pending forced refresh, any
sequence of update calls at arbitrary wall-clock times leaves the
current frame unchanged, while a reader iteration is unaffected by the
rate, so the background reader keeps filling the buffers and advancing
the read fraction exactly as at any other rate. -/
theorem update_rate_zero_stable (s : MovieState) (ts : List ℚ)
    (h0 : s.m_playbackRate = 0) (hf : s.m_forceRefreshCurrentFrame = false) :
    (ts.foldl (fun st now => update now st) s).getCurrentFrame = s.getCurrentFrame ∧
    ∀ r : ℚ,
      (readerStep (setPlaybackRate r s)).m_cpuFrameBuffer =
        (readerStep s).m_cpuFrameBuffer ∧
      (readerStep (setPlaybackRate r s)).m_readFraction =
        (readerStep s).m_readFraction := by
  refine ⟨by rw [foldl_update_rate_zero ts s h0 hf], ?_⟩
  intro r
  rw [readerStep_setRate]
  exact ⟨rfl, rfl⟩

/-- Witness for C6 at a freshly constructed, paused movie and three
update times. -/
theorem update_rate_zero_stable_w :
    ((pause (initMovie sampleTrack defaultOptions)).m_playbackRate = 0 ∧
      (pause (initMovie sampleTrack defaultOptions)).m_forceRefreshCurrentFrame
        = false) ∧
    (([(1:ℚ), 2, 3].foldl (fun st now => update now st)
          (pause (initMovie sampleTrack defaultOptions))).getCurrentFrame
        = (pause (initMovie sampleTrack defaultOptions)).getCurrentFrame ∧
      ∀ r : ℚ,
        (readerStep (setPlaybackRate r
            (pause (initMovie sampleTrack defaultOptions)))).m_cpuFrameBuffer =
          (readerStep (pause (initMovie sampleTrack
            defaultOptions))).m_cpuFrameBuffer ∧
        (readerStep (setPlaybackRate r
            (pause (initMovie sampleTrack defaultOptions)))).m_readFraction =
          (readerStep (pause (initMovie sampleTrack
            defaultOptions))).m_readFraction) :=
  ⟨⟨rfl, rfl⟩,
    update_rate_zero_stable (pause (initMovie sampleTrack defaultOptions))
      [1, 2, 3] rfl rfl⟩

/-- C7: pausing produces exactly the state of setPlaybackRate 0; it
does not stop the movie (isPlaying is untouched, the read thread keeps
running) and a reader iteration after pausing fills the buffers exactly
as before. -/
theorem pause_eq_setPlaybackRate_zero (s : MovieState) :
    pause s = setPlaybackRate 0 s ∧
    (pause s).isPlaying = s.isPlaying ∧
    readerStep (pause s) = pause (readerStep s) :=
  ⟨rfl, rfl, readerStep_setRate s 0⟩

/-- C8: constructing a movie whose video track has an unsupported
codec fails synchronously with UnsupportedCodecError and produces no
usable object; and steady-state playback steps never change the track
codec, so the codec validated at open is the only one playback ever
sees and no unsupported-codec error can first arise during playback. -/
theorem unsupportedCodec_fatal_at_open (supported : List String) (t : TrackInfo)
    (opts : Options) (h : t.codec ∉ supported) :
    constructMovie supported t opts = .error (.unsupportedCodec t.codec) ∧
    (∀ m : MovieState, constructMovie supported t opts ≠ .ok m) ∧
    (∀ (m : MovieState) (now : ℚ),
      (update now m).track.codec = m.track.codec ∧
      (readerStep m).track.codec = m.track.codec) := by
  refine ⟨by simp [constructMovie, h], ?_, ?_⟩
  · intro m hm
    rw [constructMovie, if_neg h] at hm
    exact Except.noConfusion hm
  · intro m now
    exact ⟨by rw [update_track], by rw [readerStep_track]⟩

/-- Witness for C8 at a track with codec "mjpg" against the supported
list ["avc1"]. -/
theorem unsupportedCodec_fatal_at_open_w :
    badTrack.codec ∉ ["avc1"] ∧
    (constructMovie ["avc1"] badTrack defaultOptions
        = .error (.unsupportedCodec badTrack.codec) ∧
      (∀ m : MovieState, constructMovie ["avc1"] badTrack defaultOptions ≠ .ok m) ∧
      (∀ (m : MovieState) (now : ℚ),
        (update now m).track.codec = m.track.codec ∧
        (readerStep m).track.codec = m.track.codec)) :=
  ⟨by decide,
    unsupportedCodec_fatal_at_open ["avc1"] badTrack defaultOptions (by decide)⟩

/-- C9: a default-constructed Options has cpuBufferSize 2 and
gpuBufferSize 2, so a movie constructed without explicit options fixes
both buffer capacities at 2 slots each. -/
theorem defaultOptions_buffer_sizes (t : TrackInfo) :
    defaultOptions.cpuBufferSize = 2 ∧ defaultOptions.gpuBufferSize = 2 ∧
    (initMovie t defaultOptions).cpuCap = 2 ∧
    (initMovie t defaultOptions).gpuCap = 2 :=
  ⟨rfl, rfl, rfl, rfl⟩

/-- C10: a newly constructed movie, before any control call, is not
playing, has playback rate 1, has looping disabled, and has
read-progress fraction 0, so the first sample decoded is sample 0. -/
theorem initMovie_defaults (t : TrackInfo) (opts : Options) (n : ℕ) :
    (initMovie t opts).isPlaying = false ∧
    (initMovie t opts).getPlaybackRate = 1 ∧
    (initMovie t opts).m_loop = false ∧
    (initMovie t opts).m_readFraction = 0 ∧
    getReadSample (initMovie t opts).m_readFraction n = 0 :=
  ⟨rfl, rfl, rfl, rfl, by simp [initMovie, getReadSample, truncQ]⟩

end GLVideo
